import Mathlib

/-!
Verification of the Whitegate observatory scoring and windowing engine.

The development shallowly embeds the scoring core of `astro_build.py` and
`fish_build.py`. Numeric fields are modelled as exact rationals; loosely
typed upstream values are modelled by `RawField` (absent, coercible number,
non-coercible junk). Transcendental astronomical geometry (the `ephem`
calls, `sin`/`cos`/real powers inside `brightness_model` and `airmass`) is
abstracted by quantifying over the resulting real quantities as arbitrary
rational parameters; all downstream arithmetic is embedded exactly.
-/

namespace AstroBuild

/-- A loosely typed upstream field value, as seen by the unit normalizers:
`missing` models an absent attribute path (`_get` returns `None`),
`num q` models any value that `float(...)` coerces (numbers, numeric
strings), `malformed` models a value on which the coercion raises. -/
inductive RawField where
  | missing : RawField
  | num : ℚ → RawField
  | malformed : RawField
deriving DecidableEq, Repr

/-- Unit normalizer `_pct`: numeric coercion, `None` on failure. -/
def _pct : RawField → Option ℚ
  | .num q => some q
  | _ => none

/-- Unit normalizer `_km`: numeric coercion, `None` on failure. -/
def _km : RawField → Option ℚ
  | .num q => some q
  | _ => none

/-- Unit normalizer `_ms`: numeric coercion, `None` on failure. -/
def _ms : RawField → Option ℚ
  | .num q => some q
  | _ => none

/-- Unit normalizer `_mm`: numeric coercion, `None` on failure. -/
def _mm : RawField → Option ℚ
  | .num q => some q
  | _ => none

/-- Unit normalizer `_c`: numeric coercion, `None` on failure. -/
def _c : RawField → Option ℚ
  | .num q => some q
  | _ => none

/-- The fields of one hourly forecast record that the astro sub-score
functions read (via `_get` dotted paths in the source). -/
structure AstroHour where
  cloud_low : RawField := .missing
  cloud_mid : RawField := .missing
  cloud_high : RawField := .missing
  cloud_total : RawField := .missing
  visibility : RawField := .missing
  temperature : RawField := .missing
  dew_point : RawField := .missing
  dewpoint : RawField := .missing
  wind_speed : RawField := .missing
  wind_gusts : RawField := .missing
  precip_total : RawField := .missing
deriving DecidableEq, Repr

/-- The all-missing hourly record. -/
def emptyAstroHour : AstroHour := {}

/-- Python `x or y` on an optional float: falls through to `y` when `x`
is `None` or the float `0.0` (both falsy). -/
def orFalsy (a b : Option ℚ) : Option ℚ :=
  match a with
  | some v => if v = 0 then b else some v
  | none => b

/-- `clouds_score`: tiered 0.6/0.3/0.1 weighting when a tier is present
(missing tier falls back to `total or 0`), else `100 - total`, else the
neutral 50. Only the numeric score is embedded; the note string is
presentation. -/
def clouds_score (h : AstroHour) : ℚ :=
  let low := _pct h.cloud_low
  let mid := _pct h.cloud_mid
  let high := _pct h.cloud_high
  let total := _pct h.cloud_total
  if low.isSome || mid.isSome || high.isSome then
    let tot := total.getD 0
    let v := (6/10) * low.getD tot + (3/10) * mid.getD tot + (1/10) * high.getD tot
    max 0 (100 - v)
  else
    match total with
    | some t => max 0 (100 - t)
    | none => 50

/-- `visibility_score`: linear map of km from [5,25] to [0,100], clamped;
missing gives the neutral 60. -/
def visibility_score (h : AstroHour) : ℚ :=
  match _km h.visibility with
  | none => 60
  | some vis => max 0 (min 100 ((vis - 5) / (25 - 5) * 100))

/-- `dewspread_score`: spread = temperature - dewpoint mapped linearly from
[0,8] to [0,100], clamped, returned with the raw spread; missing input
gives (60, none). The dewpoint is read as
`_c(dew_point) or _c(dewpoint)` with Python falsy `or` semantics. -/
def dewspread_score (h : AstroHour) : ℚ × Option ℚ :=
  match _c h.temperature, orFalsy (_c h.dew_point) (_c h.dewpoint) with
  | some t, some dp =>
    let spread := t - dp
    (max 0 (min 100 ((spread - 0) / (8 - 0) * 100)), some spread)
  | some _, none => (60, none)
  | none, _ => (60, none)

/-- `wind_score` (astro variant): step function of speed with a 10-point
penalty when the gust exceeds 8 m/s, floored at 0; missing speed gives
the neutral 60. -/
def wind_score (h : AstroHour) : ℚ :=
  match _ms h.wind_speed with
  | none => 60
  | some ws =>
    let s : ℚ :=
      if ws ≤ 2 then 100 else if ws ≤ 5 then 75 else if ws ≤ 8 then 45
      else if ws ≤ 12 then 25 else 10
    let s :=
      match _ms h.wind_gusts with
      | some g => if 8 < g then s - 10 else s
      | none => s
    max 0 s

/-- `precip_score`: stepped on total precipitation; missing gives the
neutral 85. -/
def precip_score (h : AstroHour) : ℚ :=
  match _mm h.precip_total with
  | none => 85
  | some p =>
    if p = 0 then 100 else if p ≤ 1/20 then 80 else if p ≤ 1/5 then 50 else 10

/-- The knot table of the sky-darkness to score lookup in
`brightness_model`. -/
def sqmKnots : List (ℚ × ℚ) := [(35/2, 10), (37/2, 35), (39/2, 60), (41/2, 85), (43/2, 100)]

/-- The segment loop of the `interp` closure in `brightness_model`: first
segment whose bounds bracket the input interpolates linearly; the loop
fallthrough returns 60. -/
def interpGo : List ((ℚ × ℚ) × (ℚ × ℚ)) → ℚ → ℚ
  | [], _ => 60
  | ((x0, y0), (x1, y1)) :: rest, xv =>
    if x0 ≤ xv ∧ xv ≤ x1 then y0 + (xv - x0) / (x1 - x0) * (y1 - y0)
    else interpGo rest xv

/-- The `interp` closure of `brightness_model`: clamped at the outer knots,
piecewise linear between them. -/
def interp (xv : ℚ) : ℚ :=
  if xv ≤ 35/2 then 10
  else if 43/2 ≤ xv then 100
  else interpGo (sqmKnots.zip sqmKnots.tail) xv

/-- The weighted hourly composite of `hour_quality`. The sky-darkness
estimate `est_sqm` (computed in the source by `brightness_model` from
lunar geometry via `ephem` and real transcendentals) is taken as an
arbitrary rational parameter; the brightness sub-score is its `interp`
lookup, exactly as in the source. The source applies no clamp here. -/
def hour_quality (h : AstroHour) (est_sqm : ℚ) : ℚ :=
  (40/100) * clouds_score h + (10/100) * visibility_score h +
  (15/100) * (dewspread_score h).1 + (10/100) * wind_score h +
  (5/100) * precip_score h + (20/100) * interp est_sqm

/-- `classify` (astro variant). -/
def classify (score : ℚ) : String :=
  if 75 ≤ score then "GREAT" else if 60 ≤ score then "OK" else "POOR"

end AstroBuild

namespace FishBuild

/-- `score_wind` (fishing variant). The fields arrive as plain `getattr`
values, already optional numbers. -/
def score_wind (ws gust : Option ℚ) : ℚ :=
  match ws with
  | none => 60
  | some w =>
    let base : ℚ :=
      if w ≤ 2 then 100 else if w ≤ 4 then 90 else if w ≤ 6 then 75
      else if w ≤ 8 then 55 else if w ≤ 12 then 35 else 15
    let base :=
      match gust with
      | some g => if 10 < g then base - 10 else base
      | none => base
    max 0 base

/-- `score_cloud` (fishing variant): distance from the 50 percent peak. -/
def score_cloud (total : Option ℚ) : ℚ :=
  match total with
  | none => 60
  | some t => max 0 (100 - |t - 50| * (12/10))

/-- `score_precip` (fishing variant). -/
def score_precip (mm : Option ℚ) : ℚ :=
  match mm with
  | none => 80
  | some m => if m = 0 then 100 else if m ≤ 1/5 then 70 else 30

/-- `score_pressure_trend`: compares pressure now against 3 hours prior. -/
def score_pressure_trend (p_now p_prev3h : Option ℚ) : ℚ :=
  match p_now, p_prev3h with
  | some pn, some pp =>
    let dp := pn - pp
    if -2 ≤ dp ∧ dp ≤ 2 then 85 else if -4 ≤ dp ∧ dp ≤ 4 then 70 else 45
  | _, _ => 60

/-- `score_humidity`. -/
def score_humidity (h : Option ℚ) : ℚ :=
  match h with
  | none => 70
  | some rh =>
    if 40 ≤ rh ∧ rh ≤ 85 then 85 else if 30 ≤ rh ∧ rh ≤ 90 then 70 else 55

/-- `score_wave`: wave height and period tiers, with a wind-derived proxy
when no direct wave data is available. -/
def score_wave (height_m period_s ws : Option ℚ) : ℚ :=
  match height_m, period_s with
  | none, none =>
    (match ws with
     | none => 70
     | some w => if w ≤ 6 then 65 else if w ≤ 10 then 45 else 25)
  | _, _ =>
    let hh := height_m.getD (4/5)
    let t := period_s.getD 7
    let s_h : ℚ :=
      if hh ≤ 1/2 then 100 else if hh ≤ 4/5 then 85 else if hh ≤ 6/5 then 70
      else if hh ≤ 9/5 then 45 else 20
    let s_t : ℚ := if t < 5 then 60 else if t ≤ 10 then 85 else 75
    (6/10) * s_h + (4/10) * s_t

/-- `score_sea_temp` (the month argument of the source is unused there and
omitted in the embedding). -/
def score_sea_temp (tC : Option ℚ) : ℚ :=
  match tC with
  | none => 70
  | some t =>
    if 10 ≤ t ∧ t ≤ 17 then 85 else if 17 < t then 95
    else if 8 ≤ t ∧ t < 10 then 60 else 45

/-- One sample of the WorldTides hourly height series: UTC timestamp,
modelled in hours, and height in metres. -/
structure HSample where
  dt : ℚ
  height : ℚ
deriving DecidableEq, Repr

/-- One tidal extreme: UTC timestamp in hours, whether it is a high tide
(the WorldTides `type` field is `High` or `Low`), and its height. -/
structure Extreme where
  dt : ℚ
  isHigh : Bool
  height : ℚ
deriving DecidableEq, Repr

/-- The tide phase classification carried in the note string of
`score_tide`. -/
inductive TidePhase where
  | flood : TidePhase
  | ebb : TidePhase
  | slack : TidePhase
deriving DecidableEq, Repr

/-- The bracketing index of `score_tide`: first height sample at or after
the target time, else the last sample. -/
def tide_idx (heights : List HSample) (t : ℚ) : ℕ :=
  match heights.findIdx? (fun h => t ≤ h.dt) with
  | some i => i
  | none => heights.length - 1

/-- The pair (h0, h1) of height samples bracketing the target time
(`i0 = max(0, idx-1)`, `i1 = min(len-1, idx+1)`; natural subtraction
renders the floor at 0). -/
def tide_bracket (heights : List HSample) (t : ℚ) : HSample × HSample :=
  let idx := tide_idx heights t
  let i0 := idx - 1
  let i1 := min (heights.length - 1) (idx + 1)
  (heights.getD i0 ⟨0, 0⟩, heights.getD i1 ⟨0, 0⟩)

/-- The denominator of the rate estimate: the time difference of the
bracketing samples in hours, with Python `or 1.0` replacing a zero
difference by 1. -/
def tide_dth (heights : List HSample) (t : ℚ) : ℚ :=
  if (tide_bracket heights t).2.dt - (tide_bracket heights t).1.dt = 0 then 1
  else (tide_bracket heights t).2.dt - (tide_bracket heights t).1.dt

/-- The estimated rate of tidal height change in metres per hour. -/
def tide_rate (heights : List HSample) (t : ℚ) : ℚ :=
  ((tide_bracket heights t).2.height - (tide_bracket heights t).1.height) /
    tide_dth heights t

/-- The phase classification of `score_tide` from the rate. -/
def tide_phase_of_rate (r : ℚ) : TidePhase :=
  if 3/100 < r then .flood else if r < -(3/100) then .ebb else .slack

/-- `score_tide`: returns the score together with the phase recorded in
the note (`none` models the `tide:?` note of the missing-series case). -/
def score_tide (t : ℚ) (heights : List HSample) (extremes : List Extreme) :
    ℚ × Option TidePhase :=
  if heights.isEmpty then (60, none)
  else
    let r := tide_rate heights t
    let phase := tide_phase_of_rate r
    let next_ext := extremes.find? (fun ex => t ≤ ex.dt)
    let s_move := min 100 (40 + min 60 (|r| * 300))
    let s_phase : ℚ := if 3/100 < r then 5 else 0
    let s_slack_pen : ℚ := if phase = .slack then -15 else 0
    let timing_bonus : ℚ :=
      match next_ext with
      | none => 0
      | some ex =>
        let h_next := |ex.dt - t|
        if ex.isHigh then (if h_next ≤ 2 then 6 else 0)
        else (if h_next ≤ 2 then 10 else 0)
    (max 0 (min 100 (s_move + s_phase + s_slack_pen + timing_bonus)), some phase)

/-- The weather fields one fishing row reads (plain optional numbers). -/
structure FishHour where
  wind_speed : Option ℚ := none
  wind_gusts : Option ℚ := none
  cloud_total : Option ℚ := none
  precip_total : Option ℚ := none
  pressure : Option ℚ := none
  pressure_prev3h : Option ℚ := none
  humidity : Option ℚ := none
  wave_h : Option ℚ := none
  wave_t : Option ℚ := none
  sea_t : Option ℚ := none
deriving DecidableEq, Repr

/-- The per-hour fishing composite built inside `build_payload`: weighted
sum of the component scores plus the dawn/dusk bonus, clamped to [0,100].
The solar altitude (an `ephem` output in the source) is an arbitrary
rational parameter; `hasKey` models the presence of the WorldTides key. -/
def fish_hour_score (h : FishHour) (sunAlt t : ℚ)
    (heights : List HSample) (extremes : List Extreme) (hasKey : Bool) : ℚ :=
  let s_w := score_wind h.wind_speed h.wind_gusts
  let s_c := score_cloud h.cloud_total
  let s_r := score_precip h.precip_total
  let s_p := score_pressure_trend h.pressure h.pressure_prev3h
  let s_hu := score_humidity h.humidity
  let s_wav := score_wave h.wave_h h.wave_t h.wind_speed
  let s_sst := score_sea_temp h.sea_t
  let s_tide := if hasKey then (score_tide t heights extremes).1 else 60
  let dawn_dusk_bonus : ℚ := if -12 < sunAlt ∧ sunAlt < 6 then 6 else 0
  let score :=
    (25/100) * s_w + (8/100) * s_c + (8/100) * s_r + (8/100) * s_p +
    (5/100) * s_hu + (20/100) * s_wav + (6/100) * s_sst + (20/100) * s_tide +
    dawn_dusk_bonus
  max 0 (min 100 score)

/-- The inline window classification of `build_payload`. -/
def classify_fish (s : ℚ) : String :=
  if 75 ≤ s then "GOOD" else if 60 ≤ s then "FAIR" else "POOR"

end FishBuild

namespace AstroBuild

/-- One dated hourly sample as seen by the night-window builder: local
timestamp (modelled in hours on a rational time line) and the solar
altitude in degrees that `geo.compute` derives for it. Records without a
date are skipped by the source before they reach the scan and are not
modelled. -/
structure Hour where
  t : ℚ
  sunAlt : ℚ
deriving DecidableEq, Repr

/-- The darkness predicate of the builder: solar altitude at most -18
degrees (astronomical night). -/
def isDark (h : Hour) : Bool := h.sunAlt ≤ -18

/-- Start buffer in hours added to the raw window start. -/
def SUNSET_BUFFER_H : ℚ := 1

/-- End buffer in hours subtracted from the raw window end. -/
def SUNRISE_BUFFER_H : ℚ := 1

/-- An emitted night window: buffered start and end timestamps (the label
is a formatting of the start and is not modelled). -/
abbrev Win := ℚ × ℚ

/-- The validity filter applied on emission: the window is kept only when
the buffered start is strictly before the buffered end. -/
def emitWin (s e : ℚ) : List Win := if s < e then [(s, e)] else []

/-- The loop state of `build_night_windows_from_hourly`: `run` couples the
`in_dark` flag with `start_dt` (the source sets and clears them together),
`prev` is `prev_dt`, `wins` the accumulator. -/
structure ScanSt where
  run : Option ℚ
  prev : Option ℚ
  wins : List Win
deriving DecidableEq, Repr

/-- One iteration of the scan. The two sequential conditionals of the
source body reduce to this four-way case split on (darkness, run state);
`prev_dt` is read before being updated to the current timestamp. -/
def nightStep (st : ScanSt) (h : Hour) : ScanSt :=
  if isDark h then
    match st.run with
    | none => { run := some h.t, prev := some h.t, wins := st.wins }
    | some s0 => { run := some s0, prev := some h.t, wins := st.wins }
  else
    match st.run with
    | none => { st with prev := some h.t }
    | some s0 =>
      let e0 := st.prev.getD h.t
      { run := none, prev := some h.t,
        wins := st.wins ++ emitWin (s0 + SUNSET_BUFFER_H) (e0 - SUNRISE_BUFFER_H) }

/-- The terminal flush: a run still open at the end of input emits a
trailing window, guarded by the same buffer and validity rule. -/
def nightFlush (st : ScanSt) : List Win :=
  match st.run, st.prev with
  | some s0, some p0 => st.wins ++ emitWin (s0 + SUNSET_BUFFER_H) (p0 - SUNRISE_BUFFER_H)
  | _, _ => st.wins

/-- The timestamp order used by the initial `sorted(...)` call. -/
def timeLE (a b : Hour) : Prop := a.t ≤ b.t

instance : DecidableRel timeLE := fun a b => inferInstanceAs (Decidable (a.t ≤ b.t))

/-- `build_night_windows_from_hourly`: sort the records by timestamp
(insertion sort models the stable Python sort), scan, flush. -/
def build_night_windows_from_hourly (l : List Hour) : List Win :=
  nightFlush ((l.insertionSort timeLE).foldl nightStep ⟨none, none, []⟩)

/-- Modelled from the spec (section 4.4 and the state machine note): the
window builder as described — decompose the time-ordered input into
maximal qualifying runs; each run opens at its first qualifying sample and
closes at its last (the previous qualifying sample at the exit, also when
the input ends inside a run); buffer and keep only valid windows. This is
the specification-side definition against which the scan is checked. -/
def specNightWindows : List Hour → List Win
  | [] => []
  | h :: t =>
    if isDark h then
      let run := t.takeWhile isDark
      let e0 := (run.getLast?.map Hour.t).getD h.t
      emitWin (h.t + SUNSET_BUFFER_H) (e0 - SUNRISE_BUFFER_H) ++
        specNightWindows (t.dropWhile isDark)
    else specNightWindows t
termination_by l => l.length
decreasing_by
  · exact Nat.lt_succ_of_le ((List.dropWhile_suffix isDark).sublist.length_le)
  · exact Nat.lt_succ_self _

/-- The sliding best-2h fold of `main`: running maximum with index, strict
comparison so the first maximum wins; the running score starts at -1 and
the best slot at `none`. -/
def bestGo : ℚ → Option ℕ → ℕ → List ℚ → ℚ × Option ℕ
  | bs, bi, _, [] => (bs, bi)
  | bs, bi, i, s :: rest =>
    if bs < s then bestGo s (some i) (i + 1) rest
    else bestGo bs bi (i + 1) rest

/-- The list of means of 2 consecutive per-hour composites, one per slide
position. -/
def pairMeans (l : List ℚ) : List ℚ :=
  List.zipWith (fun a b => (a + b) / 2) l l.tail

/-- The best-2h selection of `main` on the per-hour composite scores of a
night window: resulting best mean and the index of the winning position
(`none` models the `best2h = None` initial value never being replaced). -/
def best2h (l : List ℚ) : ℚ × Option ℕ := bestGo (-1) none 0 (pairMeans l)

/-- The mean composite of the 2-record slide position at index `i`. -/
def pairMean (l : List ℚ) (i : ℕ) : ℚ := (l.getD i 0 + l.getD (i + 1) 0) / 2

instance : IsTotal Hour timeLE := ⟨fun a b => le_total a.t b.t⟩

instance : IsTrans Hour timeLE := ⟨fun _ _ _ hab hbc => le_trans hab hbc⟩

/-- Modelled from the claim wording of C5 (spec section 4.2, wind score):
step function of the speed, 10 subtracted when the gust exceeds 8 m/s,
floored at 0, neutral 60 on a missing speed. -/
def spec_wind_score (ws gust : Option ℚ) : ℚ :=
  match ws with
  | none => 60
  | some w =>
    let step : ℚ :=
      if w ≤ 2 then 100 else if w ≤ 5 then 75 else if w ≤ 8 then 45
      else if w ≤ 12 then 25 else 10
    let pen : ℚ :=
      match gust with
      | some g => if 8 < g then 10 else 0
      | none => 0
    max 0 (step - pen)

/-- The fishing-variant wind step policy as the amended claim states it:
steps at 2/4/6/8/12 m/s with values 100/90/75/55/35/15, 10 subtracted
when the gust exceeds 10 m/s, floored at 0, neutral 60 when missing. -/
def spec_fish_wind_score (ws gust : Option ℚ) : ℚ :=
  match ws with
  | none => 60
  | some w =>
    let step : ℚ :=
      if w ≤ 2 then 100 else if w ≤ 4 then 90 else if w ≤ 6 then 75
      else if w ≤ 8 then 55 else if w ≤ 12 then 35 else 15
    let pen : ℚ :=
      match gust with
      | some g => if 10 < g then 10 else 0
      | none => 0
    max 0 (step - pen)

/-- The hourly record exhibiting the missing upper clamp of the cloud
score: a (malformed) negative total cloud cover. -/
def c1CexHour : AstroHour := { cloud_total := .num (-200) }

/-- A concrete time-ordered night: six hourly samples of which hours 1 to
4 are astronomically dark. -/
def c2Hours : List Hour :=
  [⟨0, -10⟩, ⟨1, -20⟩, ⟨2, -20⟩, ⟨3, -20⟩, ⟨4, -20⟩, ⟨5, -10⟩]

/-- The record on which the dew-spread bug triggers: temperature present,
`dew_point` present with the value 0.0, no `dewpoint` alias. -/
def c6FailingHour : AstroHour := { temperature := .num 5, dew_point := .num 0 }

end AstroBuild

namespace FishBuild

/-- Modelled from the claim wording of C4 (spec section 4.2, tide score):
phase from the estimated rate (flood above 0.03 m/h, ebb below -0.03,
else slack); base movement score `clamp(40 + min(60, |rate| * 300), 0,
100)`; plus 5 if flooding; minus 15 if slack; plus 6 when the next
extreme is a high tide within 2 hours and plus 10 when it is a low tide
within 2 hours; the result clamped to [0,100]; neutral 60 on an empty
height series. -/
def spec_score_tide (t : ℚ) (heights : List HSample) (extremes : List Extreme) :
    ℚ × Option TidePhase :=
  if heights.isEmpty then (60, none)
  else
    let r := tide_rate heights t
    let phase : TidePhase :=
      if 3/100 < r then .flood else if r < -(3/100) then .ebb else .slack
    let base := max 0 (min 100 (40 + min 60 (|r| * 300)))
    let floodBonus : ℚ := if phase = .flood then 5 else 0
    let slackPenalty : ℚ := if phase = .slack then -15 else 0
    let timing : ℚ :=
      match extremes.find? (fun ex => t ≤ ex.dt) with
      | none => 0
      | some ex =>
        if ex.isHigh ∧ |ex.dt - t| ≤ 2 then 6
        else if ¬ex.isHigh ∧ |ex.dt - t| ≤ 2 then 10
        else 0
    (max 0 (min 100 (base + floodBonus + slackPenalty + timing)), some phase)

end FishBuild

namespace AstroBuild

section Bounds

lemma maxmin_bounds (x : ℚ) : 0 ≤ max 0 (min 100 x) ∧ max 0 (min 100 x) ≤ 100 :=
  ⟨le_max_left 0 _, max_le (by norm_num) (min_le_left 100 x)⟩

lemma visibility_score_bounds (h : AstroHour) :
    0 ≤ visibility_score h ∧ visibility_score h ≤ 100 := by
  rcases e : _km h.visibility with _ | v
  · simp only [visibility_score, e]; norm_num
  · simp only [visibility_score, e]; exact maxmin_bounds _

lemma dewspread_score_bounds (h : AstroHour) :
    0 ≤ (dewspread_score h).1 ∧ (dewspread_score h).1 ≤ 100 := by
  rcases e1 : _c h.temperature with _ | t
  · simp only [dewspread_score, e1]; norm_num
  · rcases e2 : orFalsy (_c h.dew_point) (_c h.dewpoint) with _ | dp
    · simp only [dewspread_score, e1, e2]; norm_num
    · simp only [dewspread_score, e1, e2]; exact maxmin_bounds _

lemma wind_score_bounds (h : AstroHour) :
    0 ≤ wind_score h ∧ wind_score h ≤ 100 := by
  rcases e1 : _ms h.wind_speed with _ | w
  · simp only [wind_score, e1]; norm_num
  · rcases e2 : _ms h.wind_gusts with _ | g <;>
      simp only [wind_score, e1, e2] <;>
      refine ⟨le_max_left 0 _, max_le (by norm_num) ?_⟩ <;>
      split_ifs <;> norm_num

lemma precip_score_bounds (h : AstroHour) :
    0 ≤ precip_score h ∧ precip_score h ≤ 100 := by
  rcases e : _mm h.precip_total with _ | p
  · simp only [precip_score, e]; norm_num
  · simp only [precip_score, e]; split_ifs <;> norm_num

lemma interp_bounds (x : ℚ) : 10 ≤ interp x ∧ interp x ≤ 100 := by
  have hz : sqmKnots.zip sqmKnots.tail =
      [((35/2, 10), (37/2, 35)), ((37/2, 35), (39/2, 60)),
       ((39/2, 60), (41/2, 85)), ((41/2, 85), (43/2, 100))] := rfl
  rw [interp, hz]
  simp only [interpGo]
  split_ifs <;> constructor <;> norm_num <;> linarith

lemma clouds_score_bounds (h : AstroHour)
    (hl : ∀ q, _pct h.cloud_low = some q → 0 ≤ q)
    (hm : ∀ q, _pct h.cloud_mid = some q → 0 ≤ q)
    (hh : ∀ q, _pct h.cloud_high = some q → 0 ≤ q)
    (ht : ∀ q, _pct h.cloud_total = some q → 0 ≤ q) :
    0 ≤ clouds_score h ∧ clouds_score h ≤ 100 := by
  have htot : 0 ≤ (_pct h.cloud_total).getD 0 := by
    rcases e : _pct h.cloud_total with _ | q
    · norm_num
    · simpa using ht q e
  have h1 : 0 ≤ (_pct h.cloud_low).getD ((_pct h.cloud_total).getD 0) := by
    rcases e : _pct h.cloud_low with _ | q
    · simpa using htot
    · simpa using hl q e
  have h2 : 0 ≤ (_pct h.cloud_mid).getD ((_pct h.cloud_total).getD 0) := by
    rcases e : _pct h.cloud_mid with _ | q
    · simpa using htot
    · simpa using hm q e
  have h3 : 0 ≤ (_pct h.cloud_high).getD ((_pct h.cloud_total).getD 0) := by
    rcases e : _pct h.cloud_high with _ | q
    · simpa using htot
    · simpa using hh q e
  simp only [clouds_score]
  split_ifs with hcase
  · exact ⟨le_max_left 0 _, max_le (by norm_num) (by nlinarith)⟩
  · rcases e : _pct h.cloud_total with _ | q
    · simp only [e]; norm_num
    · have := ht q e
      simp only [e]
      exact ⟨le_max_left 0 _, max_le (by norm_num) (by linarith)⟩

lemma hour_quality_bounds (h : AstroHour) (est : ℚ)
    (hl : ∀ q, _pct h.cloud_low = some q → 0 ≤ q)
    (hm : ∀ q, _pct h.cloud_mid = some q → 0 ≤ q)
    (hh : ∀ q, _pct h.cloud_high = some q → 0 ≤ q)
    (ht : ∀ q, _pct h.cloud_total = some q → 0 ≤ q) :
    0 ≤ hour_quality h est ∧ hour_quality h est ≤ 100 := by
  obtain ⟨c1, c2⟩ := clouds_score_bounds h hl hm hh ht
  obtain ⟨v1, v2⟩ := visibility_score_bounds h
  obtain ⟨d1, d2⟩ := dewspread_score_bounds h
  obtain ⟨w1, w2⟩ := wind_score_bounds h
  obtain ⟨p1, p2⟩ := precip_score_bounds h
  obtain ⟨b1, b2⟩ := interp_bounds est
  unfold hour_quality
  constructor <;> nlinarith

end Bounds

end AstroBuild

namespace FishBuild

section Bounds

lemma score_wind_bounds (ws gust : Option ℚ) :
    0 ≤ score_wind ws gust ∧ score_wind ws gust ≤ 100 := by
  rcases ws with _ | w
  · simp only [score_wind]; norm_num
  · rcases gust with _ | g <;>
      simp only [score_wind] <;>
      refine ⟨le_max_left 0 _, max_le (by norm_num) ?_⟩ <;>
      split_ifs <;> norm_num

lemma score_cloud_bounds (total : Option ℚ) :
    0 ≤ score_cloud total ∧ score_cloud total ≤ 100 := by
  rcases total with _ | t
  · simp only [score_cloud]; norm_num
  · simp only [score_cloud]
    refine ⟨le_max_left 0 _, max_le (by norm_num) ?_⟩
    have : 0 ≤ |t - 50| := abs_nonneg _
    nlinarith

lemma score_precip_bounds (mm : Option ℚ) :
    0 ≤ score_precip mm ∧ score_precip mm ≤ 100 := by
  rcases mm with _ | m
  · simp only [score_precip]; norm_num
  · simp only [score_precip]; split_ifs <;> norm_num

lemma score_pressure_trend_bounds (a b : Option ℚ) :
    0 ≤ score_pressure_trend a b ∧ score_pressure_trend a b ≤ 100 := by
  rcases a with _ | pn
  · simp only [score_pressure_trend]; norm_num
  · rcases b with _ | pp
    · simp only [score_pressure_trend]; norm_num
    · simp only [score_pressure_trend]; split_ifs <;> norm_num

lemma score_humidity_bounds (h : Option ℚ) :
    0 ≤ score_humidity h ∧ score_humidity h ≤ 100 := by
  rcases h with _ | rh
  · simp only [score_humidity]; norm_num
  · simp only [score_humidity]; split_ifs <;> norm_num

lemma score_wave_bounds (hm ps ws : Option ℚ) :
    0 ≤ score_wave hm ps ws ∧ score_wave hm ps ws ≤ 100 := by
  rcases hm with _ | hh
  · rcases ps with _ | p
    · rcases ws with _ | w
      · simp only [score_wave]; norm_num
      · simp only [score_wave]; split_ifs <;> norm_num
    · simp only [score_wave]; split_ifs <;> norm_num
  · rcases ps with _ | p
    · simp only [score_wave]; split_ifs <;> norm_num
    · simp only [score_wave]; split_ifs <;> norm_num

lemma score_sea_temp_bounds (t : Option ℚ) :
    0 ≤ score_sea_temp t ∧ score_sea_temp t ≤ 100 := by
  rcases t with _ | x
  · simp only [score_sea_temp]; norm_num
  · simp only [score_sea_temp]; split_ifs <;> norm_num

lemma score_tide_bounds (t : ℚ) (hs : List HSample) (exs : List Extreme) :
    0 ≤ (score_tide t hs exs).1 ∧ (score_tide t hs exs).1 ≤ 100 := by
  unfold score_tide
  split_ifs with he
  · norm_num
  · exact AstroBuild.maxmin_bounds _

lemma fish_hour_score_bounds (h : FishHour) (sunAlt t : ℚ)
    (hs : List HSample) (exs : List Extreme) (key : Bool) :
    0 ≤ fish_hour_score h sunAlt t hs exs key ∧
      fish_hour_score h sunAlt t hs exs key ≤ 100 := by
  unfold fish_hour_score
  exact AstroBuild.maxmin_bounds _

end Bounds

end FishBuild

open AstroBuild FishBuild

/-- C1 (counterexample): the claim fails as stated — `clouds_score` has no
upper clamp, so a record whose total cloud cover coerces to -200 percent
yields the sub-score 300, and the astro hourly composite built from it
(`hour_quality`, which the source does not clamp) evaluates to 639/4,
above 100. -/
theorem scores_clamped_counterexample :
    clouds_score c1CexHour = 300 ∧
    ¬ clouds_score c1CexHour ≤ 100 ∧
    hour_quality c1CexHour 20 = 639/4 ∧
    ¬ hour_quality c1CexHour 20 ≤ 100 := by
  have hc : clouds_score c1CexHour = 300 := by
    norm_num [clouds_score, c1CexHour, _pct, max_def]
  have hq : hour_quality c1CexHour 20 = 639/4 := by
    rw [hour_quality, hc]
    norm_num [c1CexHour, _pct, _km, _ms, _mm, _c, visibility_score,
      dewspread_score, wind_score, precip_score, orFalsy, interp, interpGo,
      sqmKnots, List.zip_cons_cons, List.tail_cons, max_def, min_def]
  refine ⟨hc, by rw [hc]; norm_num, hq, by rw [hq]; norm_num⟩

/-- C1 (amended): whenever the cloud-cover percentage fields that are
present coerce to nonnegative values, the astro hourly composite and the
cloud sub-score lie in [0,100]; every other sub-score of both variants
lies in [0,100] for all inputs, and the fishing composite is clamped to
[0,100] for all inputs. -/
theorem scores_clamped_amended (h : AstroHour) (est : ℚ)
    (hl : ∀ q, _pct h.cloud_low = some q → 0 ≤ q)
    (hm : ∀ q, _pct h.cloud_mid = some q → 0 ≤ q)
    (hh : ∀ q, _pct h.cloud_high = some q → 0 ≤ q)
    (ht : ∀ q, _pct h.cloud_total = some q → 0 ≤ q)
    (fh : FishHour) (sunAlt t : ℚ) (hs : List HSample)
    (exs : List Extreme) (key : Bool) :
    (0 ≤ hour_quality h est ∧ hour_quality h est ≤ 100) ∧
    (0 ≤ clouds_score h ∧ clouds_score h ≤ 100) ∧
    (0 ≤ visibility_score h ∧ visibility_score h ≤ 100) ∧
    (0 ≤ (dewspread_score h).1 ∧ (dewspread_score h).1 ≤ 100) ∧
    (0 ≤ wind_score h ∧ wind_score h ≤ 100) ∧
    (0 ≤ precip_score h ∧ precip_score h ≤ 100) ∧
    (10 ≤ interp est ∧ interp est ≤ 100) ∧
    (0 ≤ fish_hour_score fh sunAlt t hs exs key ∧
      fish_hour_score fh sunAlt t hs exs key ≤ 100) ∧
    (0 ≤ score_wind fh.wind_speed fh.wind_gusts ∧
      score_wind fh.wind_speed fh.wind_gusts ≤ 100) ∧
    (0 ≤ score_cloud fh.cloud_total ∧ score_cloud fh.cloud_total ≤ 100) ∧
    (0 ≤ score_precip fh.precip_total ∧ score_precip fh.precip_total ≤ 100) ∧
    (0 ≤ score_pressure_trend fh.pressure fh.pressure_prev3h ∧
      score_pressure_trend fh.pressure fh.pressure_prev3h ≤ 100) ∧
    (0 ≤ score_humidity fh.humidity ∧ score_humidity fh.humidity ≤ 100) ∧
    (0 ≤ score_wave fh.wave_h fh.wave_t fh.wind_speed ∧
      score_wave fh.wave_h fh.wave_t fh.wind_speed ≤ 100) ∧
    (0 ≤ score_sea_temp fh.sea_t ∧ score_sea_temp fh.sea_t ≤ 100) ∧
    (0 ≤ (score_tide t hs exs).1 ∧ (score_tide t hs exs).1 ≤ 100) :=
  ⟨hour_quality_bounds h est hl hm hh ht,
   clouds_score_bounds h hl hm hh ht,
   visibility_score_bounds h,
   dewspread_score_bounds h,
   wind_score_bounds h,
   precip_score_bounds h,
   interp_bounds est,
   fish_hour_score_bounds fh sunAlt t hs exs key,
   score_wind_bounds fh.wind_speed fh.wind_gusts,
   score_cloud_bounds fh.cloud_total,
   score_precip_bounds fh.precip_total,
   score_pressure_trend_bounds fh.pressure fh.pressure_prev3h,
   score_humidity_bounds fh.humidity,
   score_wave_bounds fh.wave_h fh.wave_t fh.wind_speed,
   score_sea_temp_bounds fh.sea_t,
   score_tide_bounds t hs exs⟩

/-- C1 (witness): the amended theorem applied to the all-missing record
and empty tide inputs; the cloud hypotheses hold vacuously there. -/
theorem scores_clamped_witness :
    (∀ q, _pct emptyAstroHour.cloud_total = some q → 0 ≤ q) ∧
    (0 ≤ hour_quality emptyAstroHour 20 ∧ hour_quality emptyAstroHour 20 ≤ 100) :=
  ⟨fun _ hq => Option.noConfusion hq,
   (scores_clamped_amended emptyAstroHour 20
      (fun _ hq => Option.noConfusion hq) (fun _ hq => Option.noConfusion hq)
      (fun _ hq => Option.noConfusion hq) (fun _ hq => Option.noConfusion hq)
      {} 0 0 [] [] false).1⟩

/-- C5 (counterexample): the claimed step table is the astro one; the
fishing variant returns 90 at speed 4 m/s where the claimed table gives
75, so the claim is false for the fishing wind sub-score it also cites. -/
theorem wind_policy_counterexample :
    score_wind (some 4) none = 90 ∧
    spec_wind_score (some 4) none = 75 ∧
    score_wind (some 4) none ≠ spec_wind_score (some 4) none := by
  have h1 : score_wind (some 4) none = 90 := by
    norm_num [score_wind, max_def]
  have h2 : spec_wind_score (some 4) none = 75 := by
    norm_num [spec_wind_score, max_def]
  refine ⟨h1, h2, by rw [h1, h2]; norm_num⟩

/-- C5 (amended): the astro wind score follows the claimed steps
(2/5/8/12 m/s to 100/75/45/25/10, minus 10 when the gust exceeds 8,
floored at 0, neutral 60 when missing); the fishing wind score follows
its own steps (2/4/6/8/12 m/s to 100/90/75/55/35/15, minus 10 when the
gust exceeds 10, floored at 0, neutral 60 when missing). -/
theorem wind_policy_amended :
    (∀ h : AstroHour,
      wind_score h = spec_wind_score (_ms h.wind_speed) (_ms h.wind_gusts)) ∧
    (∀ ws gust : Option ℚ, score_wind ws gust = spec_fish_wind_score ws gust) := by
  constructor
  · intro h
    rcases e1 : _ms h.wind_speed with _ | w <;>
      rcases e2 : _ms h.wind_gusts with _ | g <;>
        simp only [wind_score, spec_wind_score, e1, e2] <;>
        split_ifs <;> norm_num
  · intro ws gust
    rcases ws with _ | w <;> rcases gust with _ | g <;>
      simp only [score_wind, spec_fish_wind_score] <;>
      split_ifs <;> norm_num

/-- C6 (code bug): on a record with temperature 5 and the `dew_point`
field 0.0 (no `dewpoint` alias), dew point is present but the Python
falsy `or` discards the value 0.0, so `dewspread_score` returns the
neutral (60, none) where the specified linear map of the spread 5 gives
125/2 with spread 5. -/
theorem dewspread_zero_dewpoint_bug :
    dewspread_score c6FailingHour = (60, none) ∧
    max 0 (min 100 (((5 : ℚ) - 0) / 8 * 100)) = 125/2 ∧
    ((60 : ℚ), (none : Option ℚ)) ≠ ((125/2 : ℚ), some ((5 : ℚ) - 0)) := by
  refine ⟨?_, by norm_num [max_def, min_def], by norm_num⟩
  norm_num [dewspread_score, c6FailingHour, _c, orFalsy]

/-- C7: the unit normalizers return the coerced number on coercible input
and `none` (never an error) on absent or malformed input, and every
sub-score function returns its documented neutral constant on the
all-missing record (astro: clouds 50, visibility 60, dew-spread 60 with
spread none, wind 60, precipitation 85; fishing: wind 60, cloud 60,
precipitation 80, pressure trend 60, humidity 70, wave 70, sea
temperature 70, tide 60). -/
theorem normalizers_total_and_neutral :
    (∀ q : ℚ, _pct (.num q) = some q ∧ _km (.num q) = some q ∧
      _ms (.num q) = some q ∧ _mm (.num q) = some q ∧ _c (.num q) = some q) ∧
    (_pct .missing = none ∧ _pct .malformed = none ∧
     _km .missing = none ∧ _km .malformed = none ∧
     _ms .missing = none ∧ _ms .malformed = none ∧
     _mm .missing = none ∧ _mm .malformed = none ∧
     _c .missing = none ∧ _c .malformed = none) ∧
    clouds_score emptyAstroHour = 50 ∧
    visibility_score emptyAstroHour = 60 ∧
    dewspread_score emptyAstroHour = (60, none) ∧
    wind_score emptyAstroHour = 60 ∧
    precip_score emptyAstroHour = 85 ∧
    score_wind none none = 60 ∧
    score_cloud none = 60 ∧
    score_precip none = 80 ∧
    score_pressure_trend none none = 60 ∧
    score_humidity none = 70 ∧
    score_wave none none none = 70 ∧
    score_sea_temp none = 70 ∧
    (score_tide 0 [] []).1 = 60 :=
  ⟨fun _ => ⟨rfl, rfl, rfl, rfl, rfl⟩, by decide⟩

/-- C8: both classifiers use the cut points 75 and 60 — the top tag holds
exactly at scores of at least 75, the middle tag exactly on [60,75), and
POOR exactly below 60. -/
theorem classification_cut_points (s : ℚ) :
    (classify s = "GREAT" ↔ 75 ≤ s) ∧
    (classify s = "OK" ↔ 60 ≤ s ∧ s < 75) ∧
    (classify s = "POOR" ↔ s < 60) ∧
    (classify_fish s = "GOOD" ↔ 75 ≤ s) ∧
    (classify_fish s = "FAIR" ↔ 60 ≤ s ∧ s < 75) ∧
    (classify_fish s = "POOR" ↔ s < 60) := by
  unfold classify classify_fish
  split_ifs with h1 h2 <;>
    refine ⟨?_, ?_, ?_, ?_, ?_, ?_⟩ <;> simp <;> intros <;>
    first
    | linarith
    | (constructor <;> linarith)

/-- C8 (witness): the classifiers evaluated at the boundary scores. -/
theorem classification_cut_points_witness :
    (classify 75 = "GREAT" ↔ (75 : ℚ) ≤ 75) ∧
    (classify 75 = "OK" ↔ (60 : ℚ) ≤ 75 ∧ (75 : ℚ) < 75) ∧
    (classify 75 = "POOR" ↔ (75 : ℚ) < 60) ∧
    (classify_fish 75 = "GOOD" ↔ (75 : ℚ) ≤ 75) ∧
    (classify_fish 75 = "FAIR" ↔ (60 : ℚ) ≤ 75 ∧ (75 : ℚ) < 75) ∧
    (classify_fish 75 = "POOR" ↔ (75 : ℚ) < 60) :=
  classification_cut_points 75

set_option maxHeartbeats 1000000 in
/-- C4: `score_tide` computes exactly the specified tide score — flood
above rate 0.03 m/h, ebb below -0.03, slack otherwise; base movement
score `clamp(40 + min(60, |rate| * 300), 0, 100)`; plus 5 when flooding,
minus 15 when slack, plus 6 for a high tide within 2 hours and plus 10
for a low tide within 2 hours; final result clamped to [0,100]; neutral
60 on an empty height series. -/
theorem tide_score_refines_spec (t : ℚ) (heights : List HSample)
    (extremes : List Extreme) :
    score_tide t heights extremes = spec_score_tide t heights extremes := by
  rcases heights with _ | ⟨x, rest⟩
  · rfl
  · simp only [score_tide, spec_score_tide, tide_phase_of_rate, List.isEmpty_cons]
    set r := tide_rate (x :: rest) t with hr
    have h0 : (0 : ℚ) ≤ |r| * 300 := by positivity
    have hmin : (0 : ℚ) ≤ min 60 (|r| * 300) := le_min (by norm_num) h0
    have hmove : max 0 (min 100 (40 + min 60 (|r| * 300))) =
        min 100 (40 + min 60 (|r| * 300)) :=
      max_eq_right (le_min (by norm_num) (by linarith))
    rw [hmove]
    cases e : List.find? (fun ex => decide (t ≤ ex.dt)) extremes with
    | none => split_ifs <;> simp_all
    | some ex =>
      rcases ex with ⟨exdt, exhi, exh⟩
      cases exhi <;> split_ifs <;> simp_all

/-- C10: the rate denominator of the tide score is never zero (a zero
time difference is replaced by 1.0), and on a one-sample height series
the bracketing samples coincide, the rate is 0 and the phase is slack,
for every target time. -/
theorem tide_rate_denominator_safe :
    (∀ (heights : List HSample) (t : ℚ), tide_dth heights t ≠ 0) ∧
    (∀ (t : ℚ) (x : HSample) (extremes : List Extreme),
      tide_rate [x] t = 0 ∧ (score_tide t [x] extremes).2 = some TidePhase.slack) := by
  constructor
  · intro heights t
    unfold tide_dth
    split_ifs with h
    · norm_num
    · exact fun hc => h hc
  · intro t x extremes
    have hbr : tide_bracket [x] t = (x, x) := by
      rcases le_or_lt t x.dt with hle | hlt
      · simp [tide_bracket, tide_idx, List.findIdx?_cons, List.findIdx?_nil, hle]
      · simp [tide_bracket, tide_idx, List.findIdx?_cons, List.findIdx?_nil,
          not_le.mpr hlt]
    have hrate : tide_rate [x] t = 0 := by
      simp [tide_rate, hbr]
    refine ⟨hrate, ?_⟩
    norm_num [score_tide, hrate, tide_phase_of_rate]

/-- The running-maximum invariant of the best-2h fold: either nothing beat
the incoming best (and the incoming state is returned unchanged), or the
fold returns the value and offset index of the first position attaining
the maximum, every entry being at most that value and every earlier entry
strictly below it. -/
lemma bestGo_spec (ms : List ℚ) : ∀ (bs : ℚ) (bi : Option ℕ) (i : ℕ),
    (bestGo bs bi i ms = (bs, bi) ∧ ∀ j, j < ms.length → ms.getD j 0 ≤ bs) ∨
    (∃ k, k < ms.length ∧ bestGo bs bi i ms = (ms.getD k 0, some (i + k)) ∧
      bs < ms.getD k 0 ∧ (∀ j, j < ms.length → ms.getD j 0 ≤ ms.getD k 0) ∧
      (∀ j, j < k → ms.getD j 0 < ms.getD k 0)) := by
  induction ms with
  | nil =>
    intro bs bi i
    left
    exact ⟨rfl, fun j hj => absurd hj (by simp)⟩
  | cons s rest ih =>
    intro bs bi i
    by_cases hc : bs < s
    · rcases ih s (some i) (i + 1) with ⟨heq, hall⟩ | ⟨k, hk, heq, hlt, hmax, hfirst⟩
      · right
        refine ⟨0, by simp, ?_, by simpa using hc, ?_, ?_⟩
        · simp only [bestGo, if_pos hc, List.getD_cons_zero, Nat.add_zero]
          exact heq
        · intro j hj
          cases j with
          | zero => simp
          | succ j' =>
            simp only [List.getD_cons_succ, List.getD_cons_zero]
            exact hall j' (by simpa using hj)
        · intro j hj
          exact absurd hj (Nat.not_lt_zero j)
      · right
        refine ⟨k + 1, by simpa using hk, ?_, by simpa using lt_trans hc hlt, ?_, ?_⟩
        · simp only [bestGo, if_pos hc, List.getD_cons_succ]
          rw [heq]
          simp only [Prod.mk.injEq, Option.some.injEq]
          exact ⟨trivial, by omega⟩
        · intro j hj
          cases j with
          | zero =>
            simp only [List.getD_cons_zero, List.getD_cons_succ]
            linarith
          | succ j' =>
            simp only [List.getD_cons_succ]
            exact hmax j' (by simpa using hj)
        · intro j hj
          cases j with
          | zero =>
            simp only [List.getD_cons_zero, List.getD_cons_succ]
            linarith
          | succ j' =>
            simp only [List.getD_cons_succ]
            exact hfirst j' (by omega)
    · rcases ih bs bi (i + 1) with ⟨heq, hall⟩ | ⟨k, hk, heq, hlt, hmax, hfirst⟩
      · left
        refine ⟨?_, ?_⟩
        · simp only [bestGo, if_neg hc]
          exact heq
        · intro j hj
          cases j with
          | zero => simpa using le_of_not_lt hc
          | succ j' =>
            simp only [List.getD_cons_succ]
            exact hall j' (by simpa using hj)
      · right
        refine ⟨k + 1, by simpa using hk, ?_, by simpa using hlt, ?_, ?_⟩
        · simp only [bestGo, if_neg hc, List.getD_cons_succ]
          rw [heq]
          simp only [Prod.mk.injEq, Option.some.injEq]
          exact ⟨trivial, by omega⟩
        · intro j hj
          cases j with
          | zero =>
            simp only [List.getD_cons_zero, List.getD_cons_succ]
            have := le_of_not_lt hc
            linarith
          | succ j' =>
            simp only [List.getD_cons_succ]
            exact hmax j' (by simpa using hj)
        · intro j hj
          cases j with
          | zero =>
            simp only [List.getD_cons_zero, List.getD_cons_succ]
            have := le_of_not_lt hc
            linarith
          | succ j' =>
            simp only [List.getD_cons_succ]
            exact hfirst j' (by omega)

lemma pairMeans_getD (l : List ℚ) (j : ℕ) (hj : j < (pairMeans l).length) :
    (pairMeans l).getD j 0 = pairMean l j := by
  have hlen : (pairMeans l).length = min l.length (l.length - 1) := by
    simp [pairMeans, List.length_zipWith, List.length_tail]
  have hj1 : j < l.length - 1 := by omega
  have hjl : j < l.length := by omega
  have hj2 : j + 1 < l.length := by omega
  have hjt : j < l.tail.length := by simp [List.length_tail]; omega
  rw [List.getD_eq_getElem?_getD, List.getElem?_eq_getElem hj, Option.getD_some]
  unfold pairMeans
  rw [List.getElem_zipWith, List.getElem_tail]
  unfold pairMean
  rw [List.getD_eq_getElem?_getD, List.getElem?_eq_getElem hjl, Option.getD_some,
    List.getD_eq_getElem?_getD, List.getElem?_eq_getElem hj2, Option.getD_some]

/-- C3: on the per-hour composite scores of a night window with at least
two hourly records (composites are nonnegative), the best-2h loop of
`main` reports the slide position of 2 consecutive records whose mean
composite is maximal, and with the strict `>` comparison the earliest
maximal position wins ties. -/
theorem best2h_first_max (l : List ℚ) (h2 : 2 ≤ l.length)
    (hnn : ∀ x ∈ l, 0 ≤ x) :
    ∃ k, (best2h l).2 = some k ∧ (best2h l).1 = pairMean l k ∧
      k + 2 ≤ l.length ∧
      (∀ j, j + 2 ≤ l.length → pairMean l j ≤ pairMean l k) ∧
      (∀ j, j < k → pairMean l j < pairMean l k) := by
  have hlen : (pairMeans l).length = min l.length (l.length - 1) := by
    simp [pairMeans, List.length_zipWith, List.length_tail]
  have hm0 : 0 < (pairMeans l).length := by omega
  have h0nn : (0 : ℚ) ≤ (pairMeans l).getD 0 0 := by
    rw [pairMeans_getD l 0 hm0]
    have h0 : 0 < l.length := by omega
    have h1 : 1 < l.length := by omega
    have ha : 0 ≤ l.getD 0 0 := by
      rw [List.getD_eq_getElem?_getD, List.getElem?_eq_getElem h0, Option.getD_some]
      exact hnn _ (List.getElem_mem h0)
    have hb : 0 ≤ l.getD 1 0 := by
      rw [List.getD_eq_getElem?_getD, List.getElem?_eq_getElem h1, Option.getD_some]
      exact hnn _ (List.getElem_mem h1)
    unfold pairMean
    linarith
  rcases bestGo_spec (pairMeans l) (-1) none 0 with ⟨_, hall⟩ |
    ⟨k, hk, heq, _, hmax, hfirst⟩
  · exfalso
    have := hall 0 hm0
    linarith
  · refine ⟨k, ?_, ?_, by omega, ?_, ?_⟩
    · unfold best2h
      rw [heq]
      simp
    · unfold best2h
      rw [heq, pairMeans_getD l k hk]
    · intro j hj
      have hjm : j < (pairMeans l).length := by omega
      have := hmax j hjm
      rwa [pairMeans_getD l j hjm, pairMeans_getD l k hk] at this
    · intro j hj
      have hjm : j < (pairMeans l).length := by omega
      have := hfirst j hj
      rwa [pairMeans_getD l j hjm, pairMeans_getD l k hk] at this

/-- C3 (witness): the specification example [50, 90, 95, 40], whose best
2-hour slide is position 1 with mean 92.5. -/
theorem best2h_first_max_witness :
    2 ≤ [(50 : ℚ), 90, 95, 40].length ∧ (∀ x ∈ [(50 : ℚ), 90, 95, 40], 0 ≤ x) ∧
      ∃ k, (best2h [(50 : ℚ), 90, 95, 40]).2 = some k ∧
        (best2h [(50 : ℚ), 90, 95, 40]).1 = pairMean [(50 : ℚ), 90, 95, 40] k ∧
        k + 2 ≤ [(50 : ℚ), 90, 95, 40].length ∧
        (∀ j, j + 2 ≤ [(50 : ℚ), 90, 95, 40].length →
          pairMean [(50 : ℚ), 90, 95, 40] j ≤ pairMean [(50 : ℚ), 90, 95, 40] k) ∧
        (∀ j, j < k → pairMean [(50 : ℚ), 90, 95, 40] j <
          pairMean [(50 : ℚ), 90, 95, 40] k) :=
  ⟨by norm_num, by decide,
   best2h_first_max [(50 : ℚ), 90, 95, 40] (by norm_num) (by decide)⟩

/-- Reading the default of the last-timestamp lookup past a cons cell. -/
lemma getLast?_time_cons (h : Hour) (xs : List Hour) (p : ℚ) :
    (((h :: xs).getLast?.map Hour.t).getD p) = ((xs.getLast?.map Hour.t).getD h.t) := by
  cases xs with
  | nil => simp
  | cons y ys =>
    rw [List.getLast?_cons_cons]
    rcases e : (y :: ys).getLast? with _ | z
    · simp at e
    · simp

/-- Membership in an emitted candidate forces the window and its
validity. -/
lemma emitWin_mem {w : Win} {s e : ℚ} (hw : w ∈ emitWin s e) :
    w = (s, e) ∧ s < e := by
  unfold emitWin at hw
  split_ifs at hw with hlt
  · simp only [List.mem_singleton] at hw
    exact ⟨hw, hlt⟩
  · simp at hw

/-- The scan of `build_night_windows_from_hourly` agrees with the
run-decomposition `specNightWindows`, stated as a pair of fold invariants:
from an outside state the remaining input contributes exactly its spec
windows; from an inside state it first closes the open run (raw end the
last leading dark sample, else the remembered previous timestamp) and
then contributes the spec windows of the remainder. -/
lemma scan_spec (l : List Hour) :
    (∀ (p : Option ℚ) (w : List Win),
      nightFlush (l.foldl nightStep ⟨none, p, w⟩) = w ++ specNightWindows l) ∧
    (∀ (s0 p0 : ℚ) (w : List Win),
      nightFlush (l.foldl nightStep ⟨some s0, some p0, w⟩) =
        w ++ emitWin (s0 + SUNSET_BUFFER_H)
            ((((l.takeWhile isDark).getLast?.map Hour.t).getD p0) - SUNRISE_BUFFER_H) ++
          specNightWindows (l.dropWhile isDark)) := by
  induction l with
  | nil =>
    constructor
    · intro p w
      simp [nightFlush, specNightWindows]
    · intro s0 p0 w
      simp [nightFlush, specNightWindows]
  | cons h t ih =>
    constructor
    · intro p w
      by_cases hd : isDark h
      · have hstep : nightStep ⟨none, p, w⟩ h = ⟨some h.t, some h.t, w⟩ := by
          simp [nightStep, hd]
        rw [List.foldl_cons, hstep, ih.2 h.t h.t w]
        simp only [specNightWindows, hd, if_true, List.append_assoc]
      · have hstep : nightStep ⟨none, p, w⟩ h = ⟨none, some h.t, w⟩ := by
          simp [nightStep, hd]
        rw [List.foldl_cons, hstep, ih.1 (some h.t) w]
        simp only [specNightWindows, hd, if_false, Bool.false_eq_true]
    · intro s0 p0 w
      by_cases hd : isDark h
      · have hstep : nightStep ⟨some s0, some p0, w⟩ h = ⟨some s0, some h.t, w⟩ := by
          simp [nightStep, hd]
        rw [List.foldl_cons, hstep, ih.2 s0 h.t w,
          List.takeWhile_cons, List.dropWhile_cons]
        simp only [hd, if_true, getLast?_time_cons]
      · have hstep : nightStep ⟨some s0, some p0, w⟩ h =
            ⟨none, some h.t, w ++ emitWin (s0 + SUNSET_BUFFER_H) (p0 - SUNRISE_BUFFER_H)⟩ := by
          simp [nightStep, hd]
        rw [List.foldl_cons, hstep, ih.1 (some h.t) _,
          List.takeWhile_cons, List.dropWhile_cons]
        simp [specNightWindows, hd]

/-- The builder is the run decomposition of its sorted input. -/
lemma build_eq_spec (l : List Hour) :
    build_night_windows_from_hourly l = specNightWindows (l.insertionSort timeLE) := by
  unfold build_night_windows_from_hourly
  simpa using (scan_spec (l.insertionSort timeLE)).1 none []

/-- C2: on a time-ordered input, the window builder emits exactly the
windows of the claimed run decomposition: each maximal qualifying run
(solar altitude at most -18 degrees) is closed with the previous
qualifying sample as raw end — also when the input ends inside a run —
then buffered (start pushed later by the start buffer, end pulled earlier
by the end buffer) and kept only if the adjusted start is strictly before
the adjusted end. -/
theorem night_windows_refine_spec (l : List Hour) (hs : l.Sorted timeLE) :
    build_night_windows_from_hourly l = specNightWindows l := by
  rw [build_eq_spec, List.Sorted.insertionSort_eq hs]

/-- C2 (witness): the builder applied to a concrete sorted night with a
four-hour dark run; both sides produce the single buffered window. -/
theorem night_windows_refine_spec_witness :
    c2Hours.Sorted timeLE ∧
      build_night_windows_from_hourly c2Hours = specNightWindows c2Hours :=
  ⟨by decide, night_windows_refine_spec c2Hours (by decide)⟩

/-- On sorted input, every window of the run decomposition is valid, its
start stems from a sample of the list pushed by the start buffer, and the
windows are pairwise disjoint with strictly increasing starts. -/
lemma spec_props : ∀ (n : ℕ) (l : List Hour), l.length ≤ n → l.Sorted timeLE →
    (∀ w ∈ specNightWindows l, w.1 < w.2) ∧
    (∀ w ∈ specNightWindows l, ∃ x ∈ l, w.1 = x.t + SUNSET_BUFFER_H) ∧
    List.Pairwise (fun a b : Win => a.2 < b.1 ∧ a.1 < b.1) (specNightWindows l) := by
  intro n
  induction n with
  | zero =>
    intro l hl _
    rcases l with _ | ⟨h, t⟩
    · refine ⟨?_, ?_, ?_⟩ <;> simp [specNightWindows]
    · simp at hl
  | succ n ih =>
    intro l hl hs
    rcases l with _ | ⟨h, t⟩
    · refine ⟨?_, ?_, ?_⟩ <;> simp [specNightWindows]
    · rcases List.pairwise_cons.mp hs with ⟨hht, htt⟩
      by_cases hd : isDark h
      · have hsub : List.Sublist (t.dropWhile isDark) t := (List.dropWhile_suffix isDark).sublist
        have hlen : (t.dropWhile isDark).length ≤ n := by
          have := hsub.length_le
          simp only [List.length_cons] at hl
          omega
        have hsorted : (t.dropWhile isDark).Sorted timeLE :=
          List.Pairwise.sublist hsub htt
        obtain ⟨ihv, ihst, ihpw⟩ := ih (t.dropWhile isDark) hlen hsorted
        have hspec : specNightWindows (h :: t) =
            emitWin (h.t + SUNSET_BUFFER_H)
              ((((t.takeWhile isDark).getLast?.map Hour.t).getD h.t) - SUNRISE_BUFFER_H) ++
              specNightWindows (t.dropWhile isDark) := by
          simp only [specNightWindows, hd, if_true]
        have he0 : ∀ x ∈ t.dropWhile isDark,
            (((t.takeWhile isDark).getLast?.map Hour.t).getD h.t) ≤ x.t := by
          intro x hx
          rcases e : (t.takeWhile isDark).getLast? with _ | z
          · simpa using hht x (hsub.subset hx)
          · have hz : z ∈ t.takeWhile isDark := by
              rcases List.getLast?_eq_some_iff.mp e with ⟨ys, hys⟩
              rw [hys]
              exact List.mem_append_right ys (List.mem_singleton_self z)
            have hcross : timeLE z x := by
              have hsplit := htt
              rw [← List.takeWhile_append_dropWhile (p := isDark) (l := t)] at hsplit
              exact (List.pairwise_append.mp hsplit).2.2 z hz x hx
            simpa using hcross
        refine ⟨?_, ?_, ?_⟩
        · intro w hw
          rw [hspec] at hw
          rcases List.mem_append.mp hw with hw1 | hw2
          · obtain ⟨heq, hv⟩ := emitWin_mem hw1
            rw [heq]
            exact hv
          · exact ihv w hw2
        · intro w hw
          rw [hspec] at hw
          rcases List.mem_append.mp hw with hw1 | hw2
          · exact ⟨h, List.mem_cons_self h t, by rw [(emitWin_mem hw1).1]⟩
          · obtain ⟨x, hx, hxe⟩ := ihst w hw2
            exact ⟨x, List.mem_cons_of_mem h (hsub.subset hx), hxe⟩
        · rw [hspec]
          apply List.pairwise_append.mpr
          refine ⟨?_, ihpw, ?_⟩
          · unfold emitWin
            split_ifs <;> simp
          · intro a ha b hb
            obtain ⟨haeq, hav⟩ := emitWin_mem ha
            obtain ⟨x, hx, hbx⟩ := ihst b hb
            have hxt := he0 x hx
            have ha1 : a.1 = h.t + SUNSET_BUFFER_H := by rw [haeq]
            have ha2 : a.2 =
                (((t.takeWhile isDark).getLast?.map Hour.t).getD h.t) - SUNRISE_BUFFER_H := by
              rw [haeq]
            have hbs : SUNSET_BUFFER_H = 1 := rfl
            have hbe : SUNRISE_BUFFER_H = 1 := rfl
            constructor
            · rw [ha2, hbx]
              linarith
            · rw [ha1, hbx]
              linarith
      · have hlen : t.length ≤ n := by
          simp only [List.length_cons] at hl
          omega
        obtain ⟨ihv, ihst, ihpw⟩ := ih t hlen htt
        have hspec : specNightWindows (h :: t) = specNightWindows t := by
          simp only [specNightWindows, hd, if_false, Bool.false_eq_true]
        rw [hspec]
        refine ⟨ihv, ?_, ihpw⟩
        intro w hw
        obtain ⟨x, hx, hxe⟩ := ihst w hw
        exact ⟨x, List.mem_cons_of_mem h hx, hxe⟩

/-- C9: for every input, the emitted night windows all have start
strictly before end, and they are pairwise non-overlapping in ascending
order of start time (the builder sorts its input by timestamp before
scanning). -/
theorem night_windows_disjoint_ordered (l : List Hour) :
    (∀ w ∈ build_night_windows_from_hourly l, w.1 < w.2) ∧
    List.Pairwise (fun a b : Win => a.2 < b.1 ∧ a.1 < b.1)
      (build_night_windows_from_hourly l) := by
  rw [build_eq_spec]
  have hsort : (l.insertionSort timeLE).Sorted timeLE :=
    List.sorted_insertionSort timeLE l
  obtain ⟨hv, _, hpw⟩ := spec_props (l.insertionSort timeLE).length _ le_rfl hsort
  exact ⟨hv, hpw⟩

/-- C9 (witness): the properties evaluated on a concrete unsorted input
with two dark runs. -/
theorem night_windows_disjoint_ordered_witness :
    (∀ w ∈ build_night_windows_from_hourly
        [⟨6, -20⟩, ⟨0, -10⟩, ⟨1, -20⟩, ⟨2, -20⟩, ⟨3, -20⟩, ⟨4, -20⟩,
         ⟨5, -10⟩, ⟨7, -20⟩, ⟨8, -20⟩, ⟨9, -20⟩],
      w.1 < w.2) ∧
    List.Pairwise (fun a b : Win => a.2 < b.1 ∧ a.1 < b.1)
      (build_night_windows_from_hourly
        [⟨6, -20⟩, ⟨0, -10⟩, ⟨1, -20⟩, ⟨2, -20⟩, ⟨3, -20⟩, ⟨4, -20⟩,
         ⟨5, -10⟩, ⟨7, -20⟩, ⟨8, -20⟩, ⟨9, -20⟩]) :=
  night_windows_disjoint_ordered
    [⟨6, -20⟩, ⟨0, -10⟩, ⟨1, -20⟩, ⟨2, -20⟩, ⟨3, -20⟩, ⟨4, -20⟩,
     ⟨5, -10⟩, ⟨7, -20⟩, ⟨8, -20⟩, ⟨9, -20⟩]
